import Mathlib

/-!
Verification of the user identity and relational-aggregation module of the
sharebnb backend (the `User` class in `models/user.js`).

The embedding models the relational store as explicit lists of rows, SQL
queries as filter/sort/find operations on those lists, and the external
bcrypt library by its contract: a hash function `bhash` that is injective
and never returns its plaintext argument, with `bverify p h` true exactly
when `h` is the hash of `p`.
-/

namespace ShareBnB

/-- Error kinds thrown by the module (`expressError` classes): `UnauthorizedError`,
`BadRequestError`, `NotFoundError`, and the `ValidationError` raised by the
partial-update builder on an empty field map. -/
inductive AppErr where
  | unauthorized
  | badRequest
  | notFound
  | validation
deriving DecidableEq, Repr

/-- A row of the `users` table: id, username, password (stored hash),
first_name, last_name, email. -/
structure UserRow where
  id : Nat
  username : String
  password : String
  first_name : String
  last_name : String
  email : String
deriving DecidableEq, Repr

/-- A row of the `listings` table, as selected by `User.get`. -/
structure Listing where
  id : Nat
  name : String
  description : String
  price : Nat
  street : String
  city : String
  state : String
  zip : String
  genre : String
  owner_id : Nat
deriving DecidableEq, Repr

/-- A row of the `bookings` table, as selected by `User.get`. -/
structure Booking where
  id : Nat
  owner_id : Nat
  renter_id : Nat
  listing_id : Nat
  created_at : Nat
deriving DecidableEq, Repr

/-- A row of the `conversations` table, as selected by `User.get`. -/
structure Conversation where
  id : Nat
  renter_id : Nat
  owner_id : Nat
  listing_id : Nat
deriving DecidableEq, Repr

/-- The relational store: the tables touched by the `User` class. -/
structure DB where
  users : List UserRow
  listings : List Listing
  bookings : List Booking
  conversations : List Conversation
deriving DecidableEq, Repr

/-- Model of `bcrypt.hash` (external library, §4.1 Credential Hasher): an
injective one-way digest that never equals its plaintext input. Salting and
the work factor are irrelevant to the claims and are not modelled. -/
def bhash (p : String) : String :=
  ⟨'#' :: p.data⟩

/-- Model of `bcrypt.compare` (external library): true exactly when the
digest is the hash of the plaintext. -/
def bverify (p h : String) : Bool :=
  h == bhash p

/-- The public user projection returned by `authenticate` and `register`:
id, username, firstName, lastName, email — no password field. -/
structure PublicUser where
  id : Nat
  username : String
  firstName : String
  lastName : String
  email : String
deriving DecidableEq, Repr

/-- Project a stored row to its public (password-free) form. -/
def publicProj (u : UserRow) : PublicUser :=
  { id := u.id, username := u.username, firstName := u.first_name,
    lastName := u.last_name, email := u.email }

/-- `User.authenticate(username, password)`: `SELECT ... FROM users WHERE
username = $1`, then `bcrypt.compare`; on success delete the password field
and return the row; otherwise throw `UnauthorizedError` (same error whether
the username is missing or the password is wrong). -/
def authenticate (db : DB) (username password : String) :
    Except AppErr PublicUser :=
  match db.users.find? (fun r => r.username == username) with
  | some u =>
    if bverify password u.password then .ok (publicProj u)
    else .error .unauthorized
  | none => .error .unauthorized

/-- Fresh serial id for an inserted user row. -/
def nextUserId (users : List UserRow) : Nat :=
  (users.map (fun r => r.id)).foldr max 0 + 1

/-- `User.register({username, password, firstName, lastName, email})`:
duplicate-check on username (`BadRequestError`, nothing inserted), else hash
the password, `INSERT`, and return the `RETURNING id, username, firstName,
lastName, email` row. The second component is the store after the call. -/
def register (db : DB) (username password firstName lastName email : String) :
    Except AppErr PublicUser × DB :=
  if db.users.any (fun r => r.username == username) then
    (.error .badRequest, db)
  else
    let row : UserRow :=
      { id := nextUserId db.users, username := username,
        password := bhash password, first_name := firstName,
        last_name := lastName, email := email }
    (.ok (publicProj row), { db with users := db.users ++ [row] })

/-- `User.getAll()`: `SELECT id, username, password, ... FROM users ORDER BY
username` — raw rows, password hash included. -/
def getAll (db : DB) : List UserRow :=
  db.users.mergeSort (fun a b => decide (a.username ≤ b.username))

/-- The result of `User.get`: the user row (no password selected) with the
three attached sequences. -/
structure GetResult where
  id : Nat
  username : String
  firstName : String
  lastName : String
  email : String
  listings : List Listing
  bookings : List Booking
  conversations : List Conversation
deriving DecidableEq, Repr

/-- `User.get(username)`: look up the user (`NotFoundError` if absent), then
attach listings `WHERE owner_id = $1 ORDER BY id`, bookings `WHERE renter_id
= $1 ORDER BY id`, and conversations `WHERE owner_id = $1 OR renter_id = $1
ORDER BY id`. -/
def get (db : DB) (username : String) : Except AppErr GetResult :=
  match db.users.find? (fun r => r.username == username) with
  | none => .error .notFound
  | some u =>
    .ok { id := u.id, username := u.username, firstName := u.first_name,
          lastName := u.last_name, email := u.email,
          listings :=
            (db.listings.filter (fun l => l.owner_id == u.id)).mergeSort
              (fun a b => decide (a.id ≤ b.id)),
          bookings :=
            (db.bookings.filter (fun b => b.renter_id == u.id)).mergeSort
              (fun a b => decide (a.id ≤ b.id)),
          conversations :=
            (db.conversations.filter
              (fun c => c.owner_id == u.id || c.renter_id == u.id)).mergeSort
              (fun a b => decide (a.id ≤ b.id)) }

/-- Logical field names accepted by `User.update`'s data map. -/
inductive Field where
  | firstName
  | lastName
  | email
  | password
deriving DecidableEq, Repr

/-- The column-name translation passed by `User.update` to
`sqlForPartialUpdate`: `{firstName: "first_name", lastName: "last_name"}`;
untranslated names pass through unchanged. -/
def colName : Field → String
  | .firstName => "first_name"
  | .lastName => "last_name"
  | .email => "email"
  | .password => "password"

/-- The ordered `column = $n` fragments for the provided fields, in the
insertion order of the mapping. -/
def setFrags (data : List (Field × String)) : List String :=
  data.enum.map (fun p => colName p.2.1 ++ " = $" ++ toString (p.1 + 1))

/-- Modelled from the spec: `sqlForPartialUpdate` lives in `helpers/sql.js`,
which is not among the provided sources. Per §4.2 it turns the non-empty
field map into an ordered list of `column = $n` fragments (insertion order)
plus the matching ordered list of bind values, and fails with
`ValidationError` when the mapping is empty. -/
def sqlForPartialUpdate (data : List (Field × String)) :
    Except AppErr (List String × List String) :=
  if data.isEmpty then .error .validation
  else .ok (setFrags data, data.map (fun fv => fv.2))

/-- The `if (data.password) data.password = await bcrypt.hash(...)` step of
`User.update`: a present, truthy (non-empty string) password value is
replaced by its hash; an absent or falsy one is left as is. The association
list stands for the JS object (keys distinct, insertion-ordered). -/
def hashPasswordEntry (data : List (Field × String)) : List (Field × String) :=
  data.map (fun fv =>
    if fv.1 == Field.password && fv.2 != "" then (Field.password, bhash fv.2)
    else fv)

/-- Overwrite one logical field of a row. -/
def applyField (r : UserRow) (f : Field) (v : String) : UserRow :=
  match f with
  | .firstName => { r with first_name := v }
  | .lastName => { r with last_name := v }
  | .email => { r with email := v }
  | .password => { r with password := v }

/-- Apply a `SET` clause built from the field map to a row. -/
def applySet (r : UserRow) (data : List (Field × String)) : UserRow :=
  data.foldl (fun r fv => applyField r fv.1 fv.2) r

/-- Read one logical field of a row. -/
def fieldVal (r : UserRow) : Field → String
  | .firstName => r.first_name
  | .lastName => r.last_name
  | .email => r.email
  | .password => r.password

/-- What `User.update`'s `RETURNING id, first_name AS "firstName", last_name
AS "lastName", email` yields: note no username and no password column. -/
structure UpdateResult where
  id : Nat
  firstName : String
  lastName : String
  email : String
deriving DecidableEq, Repr

/-- `User.update(id, data)`: hash a truthy password value, build the `SET`
clause via `sqlForPartialUpdate` (its error propagates before any query),
run `UPDATE users SET ... WHERE id = $n RETURNING id, firstName, lastName,
email`, and throw `NotFoundError` when no row matched. The second component
is the store after the call. -/
def update (db : DB) (id : Nat) (data : List (Field × String)) :
    Except AppErr UpdateResult × DB :=
  let data2 := hashPasswordEntry data
  match sqlForPartialUpdate data2 with
  | .error e => (.error e, db)
  | .ok _ =>
    let users2 := db.users.map (fun u =>
      if u.id == id then applySet u data2 else u)
    match db.users.find? (fun r => r.id == id) with
    | none => (.error .notFound, { db with users := users2 })
    | some r =>
      let r2 := applySet r data2
      (.ok { id := r2.id, firstName := r2.first_name,
             lastName := r2.last_name, email := r2.email },
       { db with users := users2 })

/-- The row `register` inserts: fresh serial id, the given attributes, and
the hashed password. -/
def freshRow (db : DB)
    (username password firstName lastName email : String) : UserRow :=
  { id := nextUserId db.users, username := username,
    password := bhash password, first_name := firstName,
    last_name := lastName, email := email }

/-- The row of the single user in the concrete stores below. -/
def aliceRow : UserRow :=
  { id := 1, username := "alice", password := bhash "pw",
    first_name := "Alice", last_name := "Liddell",
    email := "alice@example.com" }

/-- One-user store used to instantiate the theorems on concrete inputs. -/
def dbW : DB :=
  { users := [aliceRow], listings := [], bookings := [], conversations := [] }

/-- A store where alice owns two listings (out of id order), rents one
booking, and has no conversations; a third listing belongs to someone
else. -/
def dbW2 : DB :=
  { users := [aliceRow],
    listings :=
      [ { id := 5, name := "loft", description := "top floor", price := 90,
          street := "1 Main", city := "Oakland", state := "CA",
          zip := "94601", genre := "loft", owner_id := 1 },
        { id := 2, name := "cabin", description := "in the woods",
          price := 60, street := "2 Pine", city := "Tahoe", state := "CA",
          zip := "96150", genre := "cabin", owner_id := 1 },
        { id := 3, name := "condo", description := "downtown", price := 80,
          street := "3 Oak", city := "Reno", state := "NV", zip := "89501",
          genre := "condo", owner_id := 9 } ],
    bookings :=
      [ { id := 7, owner_id := 9, renter_id := 1, listing_id := 3,
          created_at := 100 } ],
    conversations := [] }

/-- A store whose single row has username "alice"; `dbC2b` differs from it
only in that username. -/
def dbC2a : DB :=
  { users := [{ id := 1, username := "alice", password := "h",
                first_name := "A", last_name := "L", email := "a@x" }],
    listings := [], bookings := [], conversations := [] }

/-- Identical to `dbC2a` except that the stored username is "zelda". -/
def dbC2b : DB :=
  { users := [{ id := 1, username := "zelda", password := "h",
                first_name := "A", last_name := "L", email := "a@x" }],
    listings := [], bookings := [], conversations := [] }

/-! ### Basic facts about the hasher model -/

theorem bhash_inj {a b : String} (h : bhash a = bhash b) : a = b := by
  have hd : a.data = b.data := by
    have h2 := congrArg String.data h
    simpa [bhash] using h2
  cases a
  cases b
  exact congrArg String.mk hd

theorem bhash_ne (p : String) : bhash p ≠ p := by
  intro h
  have h2 := congrArg (fun s : String => s.data.length) h
  simp [bhash] at h2

theorem bverify_bhash_self (p : String) : bverify p (bhash p) = true := by
  simp [bverify]

theorem bverify_bhash_ne {p q : String} (h : p ≠ q) :
    bverify p (bhash q) = false := by
  have : bhash q ≠ bhash p := fun hc => h (bhash_inj hc).symm
  simp [bverify, this]

/-- Sortedness of `mergeSort` under a key function into a linear order. -/
theorem pairwise_mergeSortKey {α β : Type} [LinearOrder β] (f : α → β)
    (l : List α) :
    (l.mergeSort (fun a b => decide (f a ≤ f b))).Pairwise
      (fun a b => f a ≤ f b) := by
  refine List.Pairwise.imp ?_
    (@List.sorted_mergeSort α (fun a b => decide (f a ≤ f b)) ?_ ?_ l)
  · intro a b hab
    simpa using hab
  · intro a b c hab hbc
    simp only [decide_eq_true_eq] at hab hbc ⊢
    exact le_trans hab hbc
  · intro a b
    simp only [Bool.or_eq_true, decide_eq_true_eq]
    exact le_total (f a) (f b)

/-! ### Helper lemmas about the operations -/

theorem sqlForPartialUpdate_ne_nil (d : List (Field × String)) (h : d ≠ []) :
    sqlForPartialUpdate d = .ok (setFrags d, d.map (fun fv => fv.2)) := by
  simp [sqlForPartialUpdate, h]

theorem register_of_present (db : DB)
    (username password firstName lastName email : String)
    (h : ∃ r ∈ db.users, r.username = username) :
    register db username password firstName lastName email =
      (.error .badRequest, db) := by
  have hany : db.users.any (fun r => r.username == username) = true := by
    rw [List.any_eq_true]
    obtain ⟨r, hr, he⟩ := h
    exact ⟨r, hr, by simp [he]⟩
  simp [register, hany]

theorem register_of_absent (db : DB)
    (username password firstName lastName email : String)
    (h : ∀ r ∈ db.users, r.username ≠ username) :
    register db username password firstName lastName email =
      (.ok (publicProj (freshRow db username password firstName lastName email)),
       { db with users :=
          db.users ++ [freshRow db username password firstName lastName email] }) := by
  have hany : db.users.any (fun r => r.username == username) = false := by
    rw [List.any_eq_false]
    intro r hr
    simp [h r hr]
  simp [register, hany, freshRow]

theorem find?_username_map_pwUpdate (l : List UserRow) (id2 : Nat)
    (h uname : String) :
    (l.map (fun x =>
        if x.id == id2 then { x with password := h } else x)).find?
        (fun r => r.username == uname) =
      (l.find? (fun r => r.username == uname)).map
        (fun x => if x.id == id2 then { x with password := h } else x) := by
  rw [List.find?_map]
  have hc : ((fun r : UserRow => r.username == uname) ∘
      (fun x => if x.id == id2 then { x with password := h } else x)) =
      (fun r : UserRow => r.username == uname) := by
    funext x
    by_cases hx : (x.id == id2) = true <;> simp [Function.comp, hx]
  rw [hc]

theorem fieldVal_applyField (r : UserRow) (g f : Field) (v : String)
    (h : f ≠ g) :
    fieldVal (applyField r g v) f = fieldVal r f := by
  cases g <;> cases f <;> simp_all [applyField, fieldVal]

theorem fieldVal_applySet (r : UserRow) (d : List (Field × String)) (f : Field)
    (h : f ∉ d.map (fun fv => fv.1)) :
    fieldVal (applySet r d) f = fieldVal r f := by
  induction d generalizing r with
  | nil => rfl
  | cons fv t ih =>
    simp only [List.map_cons, List.mem_cons, not_or] at h
    have h1 : applySet r (fv :: t) = applySet (applyField r fv.1 fv.2) t := rfl
    rw [h1, ih _ h.2, fieldVal_applyField _ _ _ _ h.1]

theorem hashPasswordEntry_keys (d : List (Field × String)) :
    (hashPasswordEntry d).map (fun fv => fv.1) = d.map (fun fv => fv.1) := by
  unfold hashPasswordEntry
  rw [List.map_map]
  have hc : ((fun fv : Field × String => fv.1) ∘ (fun fv =>
      if fv.1 == Field.password && fv.2 != "" then (Field.password, bhash fv.2)
      else fv)) = (fun fv : Field × String => fv.1) := by
    funext fv
    by_cases hp : (fv.1 == Field.password) = true
    · have h1 : fv.1 = Field.password := by simpa using hp
      by_cases he : (fv.2 != "") = true <;> simp [Function.comp, hp, he, h1]
    · simp [Function.comp, hp]
  rw [hc]

theorem hashPasswordEntry_of_no_password (d : List (Field × String))
    (h : Field.password ∉ d.map (fun fv => fv.1)) :
    hashPasswordEntry d = d := by
  have he : ∀ fv ∈ d, fv.1 ≠ Field.password := by
    intro fv hfv hc
    exact h (by
      rw [← hc]
      exact List.mem_map_of_mem (fun fv => fv.1) hfv)
  unfold hashPasswordEntry
  have h2 : ∀ fv ∈ d,
      (if fv.1 == Field.password && fv.2 != "" then
        (Field.password, bhash fv.2) else fv) = fv := by
    intro fv hfv
    simp [he fv hfv]
  rw [List.map_congr_left h2]
  simp

theorem authenticate_of_find? (db : DB) (username password : String)
    (v : UserRow)
    (h : db.users.find? (fun r => r.username == username) = some v) :
    authenticate db username password =
      if bverify password v.password then .ok (publicProj v)
      else .error .unauthorized := by
  rw [authenticate, h]

theorem get_of_find? (db : DB) (username : String) (v : UserRow)
    (h : db.users.find? (fun r => r.username == username) = some v) :
    get db username =
      .ok { id := v.id, username := v.username, firstName := v.first_name,
            lastName := v.last_name, email := v.email,
            listings :=
              (db.listings.filter (fun l => l.owner_id == v.id)).mergeSort
                (fun a b => decide (a.id ≤ b.id)),
            bookings :=
              (db.bookings.filter (fun b => b.renter_id == v.id)).mergeSort
                (fun a b => decide (a.id ≤ b.id)),
            conversations :=
              (db.conversations.filter
                (fun c => c.owner_id == v.id || c.renter_id == v.id)).mergeSort
                (fun a b => decide (a.id ≤ b.id)) } := by
  rw [get, h]

/-- The store after `update` runs its `UPDATE` statement: every row with
the targeted id gets the `SET` clause applied. -/
theorem update_snd_users (db : DB) (id : Nat) (data : List (Field × String))
    (hne : data ≠ []) :
    ((update db id data).2).users =
      db.users.map (fun u =>
        if u.id == id then applySet u (hashPasswordEntry data) else u) := by
  have h2 : hashPasswordEntry data ≠ [] := by
    simp [hashPasswordEntry, hne]
  have hsql := sqlForPartialUpdate_ne_nil (hashPasswordEntry data) h2
  simp only [update, hsql]
  cases hfind : db.users.find? (fun r => r.id == id) <;> simp [hfind]

/-! ### C1 — authenticate -/

/-- C1: `authenticate` looks up the user by username; when the user exists
and the password verifies against the stored hash it returns the public
projection (the password-free `PublicUser`); when the username does not
exist or the password does not verify it fails, and both failure cases
raise the same `AppErr.unauthorized`, indistinguishable to the caller. -/
theorem authenticate_spec (db : DB) (username password : String) :
    (db.users.find? (fun r => r.username == username) = none →
      authenticate db username password = .error .unauthorized) ∧
    (∀ u, db.users.find? (fun r => r.username == username) = some u →
      (bverify password u.password = true →
        authenticate db username password = .ok (publicProj u)) ∧
      (bverify password u.password = false →
        authenticate db username password = .error .unauthorized)) := by
  refine ⟨fun h => ?_, fun u h => ⟨fun hv => ?_, fun hv => ?_⟩⟩
  · simp [authenticate, h]
  · simp [authenticate, h, hv]
  · simp [authenticate, h, hv]

theorem authenticate_spec_witness :
    authenticate dbW "nobody" "x" = .error .unauthorized ∧
    authenticate dbW "alice" "wrong" = .error .unauthorized ∧
    authenticate dbW "alice" "pw" =
      .ok (publicProj { id := 1, username := "alice", password := bhash "pw",
                        first_name := "Alice", last_name := "Liddell",
                        email := "alice@example.com" }) :=
  ⟨(authenticate_spec dbW "nobody" "x").1 (by decide),
   ((authenticate_spec dbW "alice" "wrong").2
      { id := 1, username := "alice", password := bhash "pw",
        first_name := "Alice", last_name := "Liddell",
        email := "alice@example.com" } (by decide)).2 (by decide),
   ((authenticate_spec dbW "alice" "pw").2
      { id := 1, username := "alice", password := bhash "pw",
        first_name := "Alice", last_name := "Liddell",
        email := "alice@example.com" } (by decide)).1 (by decide)⟩

/-! ### C3 — register -/

/-- C3: when the username is already present `register` fails with
`BadRequestError` and the store is unchanged (no row added); when it is not
present, `register` hashes the password, appends exactly one new row
carrying the given attributes and the hashed password, and returns the
public projection of the new user. -/
theorem register_spec (db : DB)
    (username password firstName lastName email : String) :
    ((∃ r ∈ db.users, r.username = username) →
      register db username password firstName lastName email =
        (.error .badRequest, db)) ∧
    ((∀ r ∈ db.users, r.username ≠ username) →
      ∃ row : UserRow,
        register db username password firstName lastName email =
          (.ok (publicProj row), { db with users := db.users ++ [row] }) ∧
        row.username = username ∧ row.password = bhash password ∧
        row.first_name = firstName ∧ row.last_name = lastName ∧
        row.email = email) := by
  constructor
  · intro h
    exact register_of_present db username password firstName lastName email h
  · intro h
    exact ⟨freshRow db username password firstName lastName email,
      register_of_absent db username password firstName lastName email h,
      rfl, rfl, rfl, rfl, rfl⟩

theorem register_spec_witness :
    register dbW "alice" "x" "A" "B" "a@b" = (.error .badRequest, dbW) ∧
    ∃ row : UserRow,
      register dbW "bob" "pw2" "Bob" "Marley" "bob@example.com" =
        (.ok (publicProj row), { dbW with users := dbW.users ++ [row] }) ∧
      row.username = "bob" ∧ row.password = bhash "pw2" ∧
      row.first_name = "Bob" ∧ row.last_name = "Marley" ∧
      row.email = "bob@example.com" :=
  ⟨(register_spec dbW "alice" "x" "A" "B" "a@b").1
      ⟨{ id := 1, username := "alice", password := bhash "pw",
         first_name := "Alice", last_name := "Liddell",
         email := "alice@example.com" }, by decide, rfl⟩,
   (register_spec dbW "bob" "pw2" "Bob" "Marley" "bob@example.com").2
      (by decide)⟩

/-! ### C4 — get with relational aggregation -/

/-- C4: `get(username)` fails with `NotFoundError` when no user has that
username; otherwise it returns the user record with three attached
sequences — listings owned by the user, bookings rented by the user, and
conversations where the user is owner or renter — each ordered ascending by
id, each containing exactly the matching rows (so a user with no related
rows gets empty sequences, not an error). -/
theorem get_spec (db : DB) (username : String) :
    (db.users.find? (fun r => r.username == username) = none →
      get db username = .error .notFound) ∧
    (∀ u, db.users.find? (fun r => r.username == username) = some u →
      ∃ g, get db username = .ok g ∧
        g.id = u.id ∧ g.username = u.username ∧
        g.listings.Pairwise (fun a b => a.id ≤ b.id) ∧
        (∀ l, l ∈ g.listings ↔ l ∈ db.listings ∧ l.owner_id = u.id) ∧
        g.bookings.Pairwise (fun a b => a.id ≤ b.id) ∧
        (∀ b, b ∈ g.bookings ↔ b ∈ db.bookings ∧ b.renter_id = u.id) ∧
        g.conversations.Pairwise (fun a b => a.id ≤ b.id) ∧
        (∀ c, c ∈ g.conversations ↔
          c ∈ db.conversations ∧ (c.owner_id = u.id ∨ c.renter_id = u.id))) := by
  constructor
  · intro h
    simp [get, h]
  · intro u h
    refine ⟨_, by rw [get, h], rfl, rfl,
      pairwise_mergeSortKey (fun l : Listing => l.id) _, ?_,
      pairwise_mergeSortKey (fun b : Booking => b.id) _, ?_,
      pairwise_mergeSortKey (fun c : Conversation => c.id) _, ?_⟩
    · intro l
      simp [List.mem_filter]
    · intro b
      simp [List.mem_filter]
    · intro c
      simp [List.mem_filter]

theorem get_spec_witness :
    get dbW2 "nobody" = .error .notFound ∧
    (∃ g, get dbW2 "alice" = .ok g ∧
      g.id = 1 ∧ g.username = "alice" ∧
      g.listings.Pairwise (fun a b => a.id ≤ b.id) ∧
      (∀ l, l ∈ g.listings ↔ l ∈ dbW2.listings ∧ l.owner_id = 1) ∧
      g.bookings.Pairwise (fun a b => a.id ≤ b.id) ∧
      (∀ b, b ∈ g.bookings ↔ b ∈ dbW2.bookings ∧ b.renter_id = 1) ∧
      g.conversations.Pairwise (fun a b => a.id ≤ b.id) ∧
      (∀ c, c ∈ g.conversations ↔
        c ∈ dbW2.conversations ∧ (c.owner_id = 1 ∨ c.renter_id = 1))) :=
  ⟨(get_spec dbW2 "nobody").1 (by decide),
   (get_spec dbW2 "alice").2 aliceRow (by decide)⟩

/-! ### C5 — empty update map -/

/-- C5: `update(id, {})` with an empty field map fails with
`ValidationError` raised by the partial-update builder before any SQL is
issued, and the store is returned untouched. -/
theorem update_empty_validation (db : DB) (id : Nat) :
    update db id [] = (.error .validation, db) := rfl

/-! ### C7 — getAll returns raw rows ordered by username -/

/-- C7: `getAll` returns all the users (a permutation of the stored rows)
ordered by username ascending, and each returned row is a raw stored row —
in particular its password field is exactly the stored hash, not stripped,
unlike the password-free result types of `authenticate`, `get` and
`update`. -/
theorem getAll_spec (db : DB) :
    (getAll db).Perm db.users ∧
    (getAll db).Pairwise (fun a b => a.username ≤ b.username) ∧
    ∀ r ∈ getAll db, ∃ u ∈ db.users, r = u ∧ r.password = u.password := by
  refine ⟨List.mergeSort_perm _ _,
    pairwise_mergeSortKey (fun r : UserRow => r.username) _, ?_⟩
  intro r hr
  exact ⟨r, List.mem_mergeSort.mp hr, rfl, rfl⟩

/-! ### C2 — update result shape -/

/-- C2 counterexample: the claim says `update` returns the user's id,
username, first name, last name and email; but the `RETURNING` clause of
`User.update` omits `username`, so the result cannot carry it: two stores
(`dbC2a`, `dbC2b`) whose only row differs solely in its stored username
produce literally identical successful `update` results. -/
theorem update_counterexample :
    (update dbC2a 1 [(Field.email, "new@x")]).1 =
      (update dbC2b 1 [(Field.email, "new@x")]).1 ∧
    (update dbC2a 1 [(Field.email, "new@x")]).1 =
      .ok { id := 1, firstName := "A", lastName := "L", email := "new@x" } ∧
    dbC2a.users.map (fun r => r.username) = ["alice"] ∧
    dbC2b.users.map (fun r => r.username) = ["zelda"] :=
  ⟨rfl, rfl, rfl, rfl⟩

/-- C2 (amended): for every non-empty partialData, if a users row with the
given id exists, `update` returns the updated record consisting of id,
first name, last name and email — the password is excluded and, unlike the
claim's wording, so is the username, which the `RETURNING` clause omits;
if no row with that id exists, it fails with `NotFoundError`. -/
theorem update_spec (db : DB) (id : Nat) (data : List (Field × String))
    (hne : data ≠ []) :
    (db.users.find? (fun r => r.id == id) = none →
      (update db id data).1 = .error .notFound) ∧
    (∀ r, db.users.find? (fun r => r.id == id) = some r →
      (update db id data).1 =
        .ok { id := (applySet r (hashPasswordEntry data)).id,
              firstName := (applySet r (hashPasswordEntry data)).first_name,
              lastName := (applySet r (hashPasswordEntry data)).last_name,
              email := (applySet r (hashPasswordEntry data)).email }) := by
  have h2 : hashPasswordEntry data ≠ [] := by
    simp [hashPasswordEntry, hne]
  have hsql := sqlForPartialUpdate_ne_nil (hashPasswordEntry data) h2
  constructor
  · intro h
    simp [update, hsql, h]
  · intro r hr
    simp [update, hsql, hr]

theorem update_spec_witness :
    (update dbW 99 [(Field.firstName, "Al")]).1 = .error .notFound ∧
    (update dbW 1 [(Field.firstName, "Al")]).1 =
      .ok { id := 1, firstName := "Al", lastName := "Liddell",
            email := "alice@example.com" } :=
  ⟨(update_spec dbW 99 [(Field.firstName, "Al")] (by simp)).1 (by decide),
   (update_spec dbW 1 [(Field.firstName, "Al")] (by simp)).2 aliceRow
     (by decide)⟩

/-! ### C6 — password update then authenticate -/

/-- C6: after a successful `update(id, {password: newpw})` on an existing
user (with `newpw` truthy and distinct from the old password), the stored
hash is changed: `authenticate(username, newpw)` succeeds and
`authenticate(username, oldpw)` fails; the new password is re-hashed
before the `SET` clause is built, so the stored value is `bhash newpw`,
never the plaintext (`bhash newpw ≠ newpw`). -/
theorem update_password_authenticate
    (db : DB) (u : UserRow) (newpw oldpw : String)
    (hu : db.users.find? (fun r => r.username == u.username) = some u)
    (hid : db.users.find? (fun r => r.id == u.id) = some u)
    (hnz : newpw ≠ "") (hdiff : oldpw ≠ newpw) :
    ∃ db2,
      update db u.id [(Field.password, newpw)] =
        (.ok { id := u.id, firstName := u.first_name,
               lastName := u.last_name, email := u.email }, db2) ∧
      db2.users.find? (fun r => r.username == u.username) =
        some { u with password := bhash newpw } ∧
      bhash newpw ≠ newpw ∧
      authenticate db2 u.username newpw = .ok (publicProj u) ∧
      authenticate db2 u.username oldpw = .error .unauthorized := by
  have hd2 : hashPasswordEntry [(Field.password, newpw)] =
      [(Field.password, bhash newpw)] := by
    simp [hashPasswordEntry, hnz]
  have hsql := sqlForPartialUpdate_ne_nil [(Field.password, bhash newpw)]
    (by simp)
  have hfind : (db.users.map (fun x =>
      if x.id == u.id then { x with password := bhash newpw } else x)).find?
        (fun r => r.username == u.username) =
      some { u with password := bhash newpw } := by
    rw [find?_username_map_pwUpdate, hu]
    simp
  refine ⟨{ db with users := db.users.map (fun x =>
      if x.id == u.id then { x with password := bhash newpw } else x) },
    ?_, hfind, bhash_ne newpw, ?_, ?_⟩
  · simp only [update, hd2, hsql, hid]
    rfl
  · rw [authenticate_of_find? _ _ _ _ hfind]
    simp [bverify_bhash_self, publicProj]
  · rw [authenticate_of_find? _ _ _ _ hfind]
    simp [bverify_bhash_ne hdiff]

theorem update_password_authenticate_witness :
    ∃ db2,
      update dbW 1 [(Field.password, "npw")] =
        (.ok { id := 1, firstName := "Alice", lastName := "Liddell",
               email := "alice@example.com" }, db2) ∧
      db2.users.find? (fun r => r.username == "alice") =
        some { aliceRow with password := bhash "npw" } ∧
      bhash "npw" ≠ "npw" ∧
      authenticate db2 "alice" "npw" = .ok (publicProj aliceRow) ∧
      authenticate db2 "alice" "pw" = .error .unauthorized :=
  update_password_authenticate dbW aliceRow "npw" "pw" (by decide) (by decide)
    (by decide) (by decide)

/-! ### C8 — register then get round-trip -/

/-- C8: after a successful registration, `get` on the registered username
returns the same firstName, lastName and email that were supplied at
registration. -/
theorem register_then_get
    (db : DB) (username password firstName lastName email : String)
    (hfree : ∀ r ∈ db.users, r.username ≠ username) :
    ∃ ru db2 g,
      register db username password firstName lastName email =
        (.ok ru, db2) ∧
      get db2 username = .ok g ∧
      g.username = username ∧ g.firstName = firstName ∧
      g.lastName = lastName ∧ g.email = email := by
  have hreg := register_of_absent db username password firstName lastName
    email hfree
  have hfnone : db.users.find? (fun r => r.username == username) = none := by
    rw [List.find?_eq_none]
    intro r hr
    simp [hfree r hr]
  have hfind : (db.users ++
        [freshRow db username password firstName lastName email]).find?
        (fun r => r.username == username) =
      some (freshRow db username password firstName lastName email) := by
    rw [List.find?_append, hfnone]
    simp [freshRow]
  have hget := get_of_find?
    { db with users := db.users ++
        [freshRow db username password firstName lastName email] }
    username (freshRow db username password firstName lastName email) hfind
  exact ⟨_, _, _, hreg, hget, rfl, rfl, rfl, rfl⟩

theorem register_then_get_witness :
    ∃ ru db2 g,
      register dbW "bob" "pw2" "Bob" "Marley" "bob@example.com" =
        (.ok ru, db2) ∧
      get db2 "bob" = .ok g ∧
      g.username = "bob" ∧ g.firstName = "Bob" ∧
      g.lastName = "Marley" ∧ g.email = "bob@example.com" :=
  register_then_get dbW "bob" "pw2" "Bob" "Marley" "bob@example.com"
    (by decide)

/-! ### C9 — frame property of partial update -/

/-- C9: for every non-empty partialData, `update` modifies only the fields
present in the mapping on the targeted row: pointwise over the stored rows,
a row with a different id is returned unchanged, and on every row each
field absent from the mapping keeps its prior value; moreover when the
password field is absent it is never turned into a SQL parameter — the
re-hash step is the identity and the builder's bind values are exactly the
values of the provided fields. -/
theorem update_frame (db : DB) (id : Nat) (data : List (Field × String))
    (hne : data ≠ []) :
    List.Forall₂ (fun old new =>
        (old.id ≠ id → new = old) ∧
        (∀ f, f ∉ data.map (fun fv => fv.1) →
          fieldVal new f = fieldVal old f))
      db.users ((update db id data).2).users ∧
    (Field.password ∉ data.map (fun fv => fv.1) →
      hashPasswordEntry data = data ∧
      sqlForPartialUpdate data =
        .ok (setFrags data, data.map (fun fv => fv.2))) := by
  constructor
  · rw [update_snd_users db id data hne]
    rw [List.forall₂_map_right_iff]
    rw [List.forall₂_same]
    intro x hx
    constructor
    · intro hxid
      simp [hxid]
    · intro f hf
      by_cases hid : (x.id == id) = true
      · rw [if_pos hid]
        rw [← hashPasswordEntry_keys data] at hf
        exact fieldVal_applySet x (hashPasswordEntry data) f hf
      · rw [if_neg hid]
  · intro hpw
    refine ⟨hashPasswordEntry_of_no_password data hpw, ?_⟩
    exact sqlForPartialUpdate_ne_nil data hne

theorem update_frame_witness :
    List.Forall₂ (fun old new =>
        (old.id ≠ 1 → new = old) ∧
        (∀ f, f ∉ [(Field.firstName, "X")].map (fun fv => fv.1) →
          fieldVal new f = fieldVal old f))
      dbW.users ((update dbW 1 [(Field.firstName, "X")]).2).users ∧
    (Field.password ∉ [(Field.firstName, "X")].map (fun fv => fv.1) →
      hashPasswordEntry [(Field.firstName, "X")] = [(Field.firstName, "X")] ∧
      sqlForPartialUpdate [(Field.firstName, "X")] =
        .ok (setFrags [(Field.firstName, "X")],
          [(Field.firstName, "X")].map (fun fv => fv.2))) :=
  update_frame dbW 1 [(Field.firstName, "X")] (by simp)

/-! ### C10 — falsy password value is stored verbatim -/

/-- C10: when `update` is called with a present but falsy password value
(the empty string), the `if (data.password)` guard skips the re-hash, the
raw value reaches the builder unchanged, and the targeted row's password
column is set to the empty string verbatim instead of a hash. -/
theorem update_falsy_password (db : DB) (id : Nat) (r : UserRow)
    (hr : db.users.find? (fun x => x.id == id) = some r) :
    hashPasswordEntry [(Field.password, "")] = [(Field.password, "")] ∧
    update db id [(Field.password, "")] =
      (.ok { id := r.id, firstName := r.first_name, lastName := r.last_name,
             email := r.email },
       { db with users := db.users.map (fun x =>
          if x.id == id then { x with password := "" } else x) }) := by
  refine ⟨rfl, ?_⟩
  have h0 : hashPasswordEntry [(Field.password, "")] =
      [(Field.password, "")] := rfl
  have hsql := sqlForPartialUpdate_ne_nil [(Field.password, "")] (by simp)
  simp only [update, h0, hsql, hr]
  rfl

theorem update_falsy_password_witness :
    hashPasswordEntry [(Field.password, "")] = [(Field.password, "")] ∧
    update dbW 1 [(Field.password, "")] =
      (.ok { id := 1, firstName := "Alice", lastName := "Liddell",
             email := "alice@example.com" },
       { dbW with users := dbW.users.map (fun x =>
          if x.id == 1 then { x with password := "" } else x) }) :=
  update_falsy_password dbW 1 aliceRow (by decide)

end ShareBnB
